import Mathlib

/-!
Shallow embedding of the group-messaging frontend (src/apiAnfragen.js and
src/script.js, with the variant in src/unnamed/part_000) and proofs about it.

The JavaScript is single-threaded and event-driven; every function the claims
touch is embedded as a pure Lean function.  Asynchronous fetch calls are
modelled by an explicit outcome per request: a fetch either returns a response
carrying its boolean ok status, or throws a JavaScript error carrying a
message string.  Code that may throw lives in the Except monad, so that the
try/catch structure of the source is mirrored exactly and "no error escapes"
is a provable statement rather than a modelling artifact.
-/

/-- A thrown JavaScript error; the delete loop inspects its message string. -/
structure JsError where
  message : String
deriving DecidableEq

/-- Outcome of one fetch call: either a response with its ok status, or a
thrown error. -/
inductive FetchOutcome where
  | resp (ok : Bool)
  | err (e : JsError)
deriving DecidableEq

/-- Does the pattern occur at the head of the list (character by character)? -/
def leadMatch : List Char → List Char → Bool
  | [], _ => true
  | _ :: _, [] => false
  | p :: ps, c :: cs => p == c && leadMatch ps cs

/-- Does the pattern occur as a contiguous substring of the list?  Embeds the
JavaScript String.prototype.includes check. -/
def hasSub (pat : List Char) : List Char → Bool
  | [] => leadMatch pat []
  | c :: cs => leadMatch pat (c :: cs) || hasSub pat cs

/-- Embeds error.message.includes(pat) from the catch block of
deleteGroupsSequentially (src/apiAnfragen.js line 326). -/
def messageIncludes (e : JsError) (pat : String) : Bool :=
  hasSub pat.toList e.message.toList

/-- Awaiting a fetch: a response outcome yields its ok flag, a thrown error
propagates in the Except monad. -/
def attemptFetch (o : FetchOutcome) : Except JsError Bool :=
  match o with
  | .resp ok => .ok ok
  | .err e => .error e

/-- One entry of a delete batch: parsedId is the result of
parseInt(groupValue) (none when parseInt yields NaN), and the two outcomes
the network would give this id on its first DELETE request and on the retry
(the retry outcome is unread unless the retry is actually issued). -/
structure DeleteEntry where
  parsedId : Option Int
  firstOutcome : FetchOutcome
  retryOutcome : FetchOutcome

/-- The body of the delete loop for one valid id (src/apiAnfragen.js lines
311-351): try the DELETE; response.ok counts as success, a non-ok response as
failure; a thrown error whose message includes "Failed to fetch" triggers
exactly one retry after the fixed delay, whose response decides the count and
whose own thrown error is swallowed as a failure; any other thrown error is
counted as a failure.  Returns (countedAsSuccess, numberOfRequestsIssued). -/
def deleteOne (first retry : FetchOutcome) : Except JsError (Bool × Nat) :=
  match attemptFetch first with
  | .ok respOk => .ok (respOk, 1)
  | .error e =>
    if messageIncludes e "Failed to fetch" then
      match attemptFetch retry with
      | .ok respOk => .ok (respOk, 2)
      | .error _ => .ok (false, 2)
    else .ok (false, 1)

/-- Aggregate result of a delete batch: the two counters of
deleteGroupsSequentially plus, for the proofs, the number of DELETE requests
issued for each entry in order. -/
structure BatchResult where
  successCount : Nat
  errorCount : Nat
  requestCounts : List Nat
deriving DecidableEq

/-- The sequential loop of deleteGroupsSequentially (src/apiAnfragen.js lines
301-352): entries whose id did not parse are skipped with errorCount
incremented and no request issued; every other entry is processed by
deleteOne, each awaited before the next begins. -/
def runDeleteBatch : List DeleteEntry → Except JsError BatchResult
  | [] => .ok ⟨0, 0, []⟩
  | entry :: rest =>
    match entry.parsedId with
    | none =>
      match runDeleteBatch rest with
      | .ok r => .ok ⟨r.successCount, r.errorCount + 1, 0 :: r.requestCounts⟩
      | .error e => .error e
    | some _ =>
      match deleteOne entry.firstOutcome entry.retryOutcome with
      | .ok (succ, reqs) =>
        match runDeleteBatch rest with
        | .ok r =>
          .ok ⟨(if succ then r.successCount + 1 else r.successCount),
               (if succ then r.errorCount else r.errorCount + 1),
               reqs :: r.requestCounts⟩
        | .error e => .error e
      | .error e => .error e

/-- A cached group in Choices.js shape, as stored in Global.allGroups:
value is the backend id, label the group name, art the optional type code
(1 = Studenten, 2 = Auszubildende; none when the backend omitted it). -/
structure GroupItem where
  value : Int
  label : String
  art : Option Int
deriving DecidableEq

/-- The module-wide mutable state of src/apiAnfragen.js that the claims
concern: the group cache Global.allGroups and the advisory busy flag
isDeletingInProgress. -/
structure GlobalState where
  allGroups : List GroupItem
  isDeletingInProgress : Bool
deriving DecidableEq

/-- A raw group as delivered by GET /groups. -/
structure RawGroup where
  id : Int
  name : String
  art : Option Int
deriving DecidableEq

/-- The JSON body of a GET /groups response: success flag and an optional
groups array (none models an absent or null field, which is falsy in
JavaScript; an empty array is present and truthy). -/
structure GroupsResponse where
  success : Bool
  groups : Option (List RawGroup)
deriving DecidableEq

/-- Conversion into Choices.js format performed by ladeGruppen
(src/apiAnfragen.js lines 82-86). -/
def toChoice (g : RawGroup) : GroupItem :=
  ⟨g.id, g.name, g.art⟩

/-- ladeGruppen (src/apiAnfragen.js lines 70-125): if a delete is in
progress it resolves immediately without touching anything; otherwise the
fetched response replaces Global.allGroups when it parsed successfully with
success true and a present groups field; every failure path (thrown network
error, success false, missing groups) leaves the state unchanged. -/
def ladeGruppen (s : GlobalState) (resp : Except JsError GroupsResponse) :
    GlobalState :=
  if s.isDeletingInProgress then s
  else
    match resp with
    | .error _ => s
    | .ok data =>
      match data.groups with
      | some gs => if data.success then { s with allGroups := gs.map toChoice } else s
      | none => s

/-- deleteGroupsSequentially as a state transformer (src/apiAnfragen.js lines
296-375): runs the batch loop, then clears the busy flag (line 355).  If an
error escaped the loop the flag-clearing line would never run, which the
Except structure preserves. -/
def deleteGroupsSequentially (s : GlobalState) (groupsToDelete : List DeleteEntry) :
    Except JsError (GlobalState × BatchResult) :=
  match runDeleteBatch groupsToDelete with
  | .ok r => .ok ({ s with isDeletingInProgress := false }, r)
  | .error e => .error e

/-- Observable outcome of loeschen. -/
inductive LoeschenResult where
  | alreadyRunning
  | validationFailed
  | batchRun (r : BatchResult)
deriving DecidableEq

/-- loeschen (src/apiAnfragen.js lines 239-281): returns immediately when a
delete is already in progress; otherwise sets the busy flag, and on the
empty-selection validation failure clears it and aborts; otherwise hands the
selection to deleteGroupsSequentially. -/
def loeschen (s : GlobalState) (selectedGroups : List DeleteEntry) :
    Except JsError (GlobalState × LoeschenResult) :=
  if s.isDeletingInProgress then .ok (s, .alreadyRunning)
  else
    let s1 : GlobalState := { s with isDeletingInProgress := true }
    if selectedGroups.isEmpty then
      .ok ({ s1 with isDeletingInProgress := false }, .validationFailed)
    else
      match deleteGroupsSequentially s1 selectedGroups with
      | .ok (s2, r) => .ok (s2, .batchRun r)
      | .error e => .error e

/-- ASCII uppercase letter (codes 65 to 90), the character class written
A-Z in the year regex of extractYearFromGroupName. -/
def isUpperAZ (c : Char) : Bool :=
  65 ≤ c.toNat && c.toNat ≤ 90

/-- ASCII decimal digit (codes 48 to 57), the digit character class of the
year regex. -/
def isDigit09 (c : Char) : Bool :=
  48 ≤ c.toNat && c.toNat ≤ 57

/-- Anchored attempt of the year regex at the start of the character list:
one or more uppercase letters, then exactly two digits, a slash, and at
least one further digit; on success the two captured digits are returned.
Because uppercase letters and digits are disjoint classes, the greedy
letter run never needs to backtrack, so taking the maximal run is exact. -/
def matchYearAt (cs : List Char) : Option String :=
  match cs.takeWhile isUpperAZ, cs.dropWhile isUpperAZ with
  | [], _ => none
  | _ :: _, d1 :: d2 :: c :: d3 :: _ =>
    if isDigit09 d1 && isDigit09 d2 && c == '/' && isDigit09 d3 then
      some (String.mk [d1, d2])
    else none
  | _ :: _, _ => none

/-- Leftmost search of the unanchored year regex: JavaScript match tries
each start position in order and the earliest successful one wins. -/
def searchYear : List Char → Option String
  | [] => none
  | c :: rest =>
    match matchYearAt (c :: rest) with
    | some y => some y
    | none => searchYear rest

/-- extractYearFromGroupName (src/script.js lines 225-229 and
src/unnamed/part_000 lines 181-185): groupName.match over the pattern of
one or more uppercase letters, two captured digits, a slash and one or more
digits, returning the captured digits of the leftmost match or null. -/
def extractYearFromGroupName (groupName : String) : Option String :=
  searchYear groupName.toList

/-- extractArtFromGroupName (src/apiAnfragen.js lines 222-229): for a
non-empty name of length at least two, the uppercased second character
decides the art, 2 (Auszubildende) for S and 1 (Studenten) otherwise; any
shorter or empty name defaults to 1. -/
def extractArtFromGroupName (groupName : String) : Nat :=
  match groupName.toList with
  | _ :: b :: _ => if b.toUpper == 'S' then 2 else 1
  | _ => 1

/-- The UI-visible state senden reads (src/script.js lines 33-136): the
message textarea, the sendToAll checkbox, the year and type selections of
the two filter dropdowns, the explicit selection of the group dropdown, and
the cache Global.allGroups. -/
structure ComposerState where
  message : String
  sendToAll : Bool
  selectedYears : List String
  selectedStudTypes : List String
  groupSelection : List Int
  allGroups : List GroupItem
deriving DecidableEq

/-- Frontend-to-database mapping of a type facet value (src/script.js lines
75-79): the dropdown values studenten and auszubildende become the art
codes 1 and 2, anything else passes through. -/
def dbArtValue (studType : String) : String :=
  if studType == "studenten" then "1"
  else if studType == "auszubildende" then "2"
  else studType

/-- The art of a cached group as a string with JavaScript falsy defaulting
(src/script.js line 81): a missing art, and also art 0, yield the default
string 1. -/
def groupArtString (g : GroupItem) : String :=
  match g.art with
  | some a => if a == 0 then "1" else toString a
  | none => "1"

/-- The filter predicate of the sendToAll branch of senden (src/script.js
lines 62-86): the year facet matches when no year is selected or the year
extracted from the label is among the selected years (a label without a
year never matches a non-empty selection); the type facet matches when no
type is selected or the art string of the group is among the mapped
selected types. -/
def sendenFilter (years types : List String) (g : GroupItem) : Bool :=
  let yearMatch :=
    if years.length > 0 then
      match extractYearFromGroupName g.label with
      | some y => years.contains y
      | none => false
    else true
  let typeMatch :=
    if types.length > 0 then
      (types.map dbArtValue).contains (groupArtString g)
    else true
  yearMatch && typeMatch

/-- Target resolution of senden (src/script.js lines 39-116): with
sendToAll checked, all cached groups filtered by the current facets (no
filtering at all when both facet selections are empty), projected to their
labels; otherwise the explicitly selected ids looked up in the cache, an
unknown id falling back to the id itself as the displayed name. -/
def resolveTargets (st : ComposerState) : List String :=
  if st.sendToAll then
    let filteredGroups :=
      if st.selectedYears.length > 0 || st.selectedStudTypes.length > 0 then
        st.allGroups.filter (sendenFilter st.selectedYears st.selectedStudTypes)
      else st.allGroups
    filteredGroups.map (fun g => g.label)
  else
    st.groupSelection.map (fun id =>
      match st.allGroups.find? (fun g => g.value == id) with
      | some g => g.label
      | none => toString id)

/-- The Outbound Message built by senden and handed to buildJson
(src/script.js lines 131-135). -/
structure OutboundMessage where
  message : String
  groups : List String
deriving DecidableEq

/-- Which sink the deployment variant wires buildJson to: src/script.js
POSTs the JSON to the push-notification endpoint via sendJSON, while the
variant in src/unnamed/part_000 serializes it to a downloaded file. -/
inductive SinkVariant where
  | network
  | file
deriving DecidableEq

/-- Externally observable effects of a submission, in order of occurrence. -/
inductive Effect where
  | alertShown (text : String)
  | postedJSON (m : OutboundMessage)
  | fileSaved (m : OutboundMessage)
  | refreshRequested
deriving DecidableEq

/-- The sink emission buildJson performs for the given variant. -/
def sinkEffect (v : SinkVariant) (m : OutboundMessage) : Effect :=
  match v with
  | .network => .postedJSON m
  | .file => .fileSaved m

/-- buildJson (src/script.js lines 150-180 and src/unnamed/part_000 lines
94-135): emits the message to the sink of the variant, shows the success
alert, and after the fixed 500 ms settle delay clears the message field,
removes the active group selection, unchecks sendToAll and requests a
directory refresh via ladeGruppen.  The year and type dropdown selections
are not touched by the reset.  Returns the emitted effects and the
composer state after the settle delay. -/
def buildJson (v : SinkVariant) (st : ComposerState) (myObject : OutboundMessage) :
    List Effect × ComposerState :=
  ([sinkEffect v myObject,
    .alertShown "Nachricht erfolgreich gesendet!",
    .refreshRequested],
   { st with message := "", groupSelection := [], sendToAll := false })

/-- senden (src/script.js lines 33-136): resolves the target group names,
rejects the submission with a blocking alert when the resolved list is
empty or the message text is empty, and otherwise builds the Outbound
Message and hands it to buildJson. -/
def senden (st : ComposerState) (v : SinkVariant) : List Effect × ComposerState :=
  let selectedGroupNames := resolveTargets st
  if selectedGroupNames.length == 0 || st.message == "" then
    ([.alertShown "fehlende Angaben"], st)
  else
    buildJson v st ⟨st.message, selectedGroupNames⟩

/-- Modelled from the spec (section 4.2 and claim C7): a group matches the
current facets when each non-empty facet selection contains the value the
group derives for that facet; with no facet selected every group matches. -/
def matchesFacets (years types : List String) (g : GroupItem) : Bool :=
  (years.isEmpty ||
    (match extractYearFromGroupName g.label with
     | some y => years.contains y
     | none => false)) &&
  (types.isEmpty || (types.map dbArtValue).contains (groupArtString g))

/-- The year pattern occurs in the list with the two digits d1 and d2 as
its capture: somewhere a run of one or more uppercase letters is
immediately followed by d1, d2, a slash and one or more digits. -/
def yearCaptureIn (cs : List Char) (d1 d2 : Char) : Prop :=
  ∃ pre letters ds suf,
    cs = pre ++ letters ++ d1 :: d2 :: '/' :: ds ++ suf ∧
    letters ≠ [] ∧ (∀ c ∈ letters, isUpperAZ c = true) ∧
    isDigit09 d1 = true ∧ isDigit09 d2 = true ∧
    ds ≠ [] ∧ (∀ c ∈ ds, isDigit09 c = true)

/-- The containment reading of the year pattern: somewhere in the list a
run of one or more uppercase letters is immediately followed by exactly two
digits, a slash and one or more digits.  This is the condition under which
the unanchored JavaScript regex of extractYearFromGroupName finds a match
(String.prototype.match searches every start position). -/
def yearPatternIn (cs : List Char) : Prop :=
  ∃ d1 d2, yearCaptureIn cs d1 d2

theorem deleteOne_ok (first retry : FetchOutcome) :
    ∃ succ reqs, deleteOne first retry = .ok (succ, reqs) ∧ reqs ≤ 2 := by
  cases first with
  | resp ok => exact ⟨ok, 1, rfl, by omega⟩
  | err e =>
    cases hm : messageIncludes e "Failed to fetch" with
    | true =>
      cases retry with
      | resp ok2 => exact ⟨ok2, 2, by simp [deleteOne, attemptFetch, hm], by omega⟩
      | err e2 => exact ⟨false, 2, by simp [deleteOne, attemptFetch, hm], by omega⟩
    | false => exact ⟨false, 1, by simp [deleteOne, attemptFetch, hm], by omega⟩

theorem runDeleteBatch_ok (gs : List DeleteEntry) :
    ∃ r, runDeleteBatch gs = .ok r ∧
      r.successCount + r.errorCount = gs.length ∧
      r.requestCounts.length = gs.length ∧
      ∀ c ∈ r.requestCounts, c ≤ 2 := by
  induction gs with
  | nil => exact ⟨⟨0, 0, []⟩, rfl, rfl, rfl, by simp⟩
  | cons entry rest ih =>
    obtain ⟨r, hr, hsum, hlen, hreq⟩ := ih
    cases hid : entry.parsedId with
    | none =>
      refine ⟨⟨r.successCount, r.errorCount + 1, 0 :: r.requestCounts⟩, ?_, ?_, ?_, ?_⟩
      · simp [runDeleteBatch, hid, hr]
      · simpa using by omega
      · simpa using hlen
      · intro c hc
        rcases List.mem_cons.mp hc with h0 | h0
        · omega
        · exact hreq c h0
    | some id =>
      obtain ⟨succ, reqs, hdo, hb⟩ := deleteOne_ok entry.firstOutcome entry.retryOutcome
      refine ⟨⟨if succ then r.successCount + 1 else r.successCount,
               if succ then r.errorCount else r.errorCount + 1,
               reqs :: r.requestCounts⟩, ?_, ?_, ?_, ?_⟩
      · simp [runDeleteBatch, hid, hdo, hr]
      · cases succ <;> simpa using by omega
      · simpa using hlen
      · intro c hc
        rcases List.mem_cons.mp hc with h0 | h0
        · omega
        · exact hreq c h0

theorem runDeleteBatch_append (xs ys : List DeleteEntry) (rx ry : BatchResult)
    (hx : runDeleteBatch xs = .ok rx) (hy : runDeleteBatch ys = .ok ry) :
    runDeleteBatch (xs ++ ys) =
      .ok ⟨rx.successCount + ry.successCount, rx.errorCount + ry.errorCount,
           rx.requestCounts ++ ry.requestCounts⟩ := by
  induction xs generalizing rx with
  | nil =>
    simp only [runDeleteBatch] at hx
    cases hx
    simpa using hy
  | cons entry rest ih =>
    obtain ⟨r, hr, -, -, -⟩ := runDeleteBatch_ok rest
    cases hid : entry.parsedId with
    | none =>
      rw [runDeleteBatch, hid, hr] at hx
      cases hx
      rw [List.cons_append, runDeleteBatch, hid, ih r hr]
      simp
      omega
    | some id =>
      obtain ⟨succ, reqs, hdo, -⟩ := deleteOne_ok entry.firstOutcome entry.retryOutcome
      rw [runDeleteBatch, hid, hdo, hr] at hx
      cases hx
      rw [List.cons_append, runDeleteBatch, hid, hdo, ih r hr]
      cases succ <;> simp <;> omega

/-- C1: for every batch handed to deleteGroupsSequentially, each entry gives
rise to at most two DELETE requests (one original attempt plus at most one
retry), and on completion the success count plus the failure count equals the
batch length. -/
theorem deleteBatch_retry_bound_and_total (s : GlobalState)
    (groupsToDelete : List DeleteEntry) :
    ∃ s2 r, deleteGroupsSequentially s groupsToDelete = .ok (s2, r) ∧
      r.successCount + r.errorCount = groupsToDelete.length ∧
      r.requestCounts.length = groupsToDelete.length ∧
      ∀ c ∈ r.requestCounts, c ≤ 2 := by
  obtain ⟨r, hr, hsum, hlen, hreq⟩ := runDeleteBatch_ok groupsToDelete
  exact ⟨{ s with isDeletingInProgress := false }, r,
    by simp [deleteGroupsSequentially, hr], hsum, hlen, hreq⟩

/-- Witness for C1 at a concrete batch of two ids, the first failing once
transiently and succeeding on retry. -/
theorem deleteBatch_retry_bound_and_total_witness :
    ∃ s2 r,
      deleteGroupsSequentially ⟨[], true⟩
        [⟨some 1, .err ⟨"TypeError: Failed to fetch"⟩, .resp true⟩,
         ⟨some 2, .err ⟨"TypeError: Failed to fetch"⟩, .resp true⟩] = .ok (s2, r) ∧
      r.successCount + r.errorCount = 2 ∧
      r.requestCounts.length = 2 ∧
      ∀ c ∈ r.requestCounts, c ≤ 2 :=
  deleteBatch_retry_bound_and_total ⟨[], true⟩
    [⟨some 1, .err ⟨"TypeError: Failed to fetch"⟩, .resp true⟩,
     ⟨some 2, .err ⟨"TypeError: Failed to fetch"⟩, .resp true⟩]

/-- C4: for every batch and every pattern of per-request outcomes,
deleteGroupsSequentially resolves normally with aggregate counts covering
the whole batch; no thrown error escapes past the batch boundary. -/
theorem deleteBatch_never_throws (s : GlobalState)
    (groupsToDelete : List DeleteEntry) :
    ∃ p, deleteGroupsSequentially s groupsToDelete = .ok p ∧
      p.2.successCount + p.2.errorCount = groupsToDelete.length := by
  obtain ⟨r, hr, hsum, -, -⟩ := runDeleteBatch_ok groupsToDelete
  exact ⟨({ s with isDeletingInProgress := false }, r),
    by simp [deleteGroupsSequentially, hr], hsum⟩

/-- C10: an entry whose value did not parse to an integer is processed with
zero DELETE requests, one added failure, and the remaining entries are
processed exactly as they would be on their own; the entry still counts
toward the batch total. -/
theorem deleteBatch_invalid_entry (pre post : List DeleteEntry) (e : DeleteEntry)
    (h : e.parsedId = none) :
    ∃ rPre rPost, runDeleteBatch pre = .ok rPre ∧ runDeleteBatch post = .ok rPost ∧
      runDeleteBatch (pre ++ e :: post) =
        .ok ⟨rPre.successCount + rPost.successCount,
             rPre.errorCount + (rPost.errorCount + 1),
             rPre.requestCounts ++ 0 :: rPost.requestCounts⟩ := by
  obtain ⟨rPre, hPre, -, -, -⟩ := runDeleteBatch_ok pre
  obtain ⟨rPost, hPost, -, -, -⟩ := runDeleteBatch_ok post
  have hmid : runDeleteBatch (e :: post) =
      .ok ⟨rPost.successCount, rPost.errorCount + 1, 0 :: rPost.requestCounts⟩ := by
    rw [runDeleteBatch, h, hPost]
  exact ⟨rPre, rPost, hPre, hPost,
    runDeleteBatch_append pre (e :: post) rPre _ hPre hmid⟩

/-- Witness for C10: a batch whose middle entry has an unparsable id. -/
theorem deleteBatch_invalid_entry_witness :
    ∃ rPre rPost,
      runDeleteBatch [⟨some 1, .resp true, .resp true⟩] = .ok rPre ∧
      runDeleteBatch [⟨some 2, .resp false, .resp true⟩] = .ok rPost ∧
      runDeleteBatch ([⟨some 1, .resp true, .resp true⟩] ++
          ⟨none, .resp true, .resp true⟩ :: [⟨some 2, .resp false, .resp true⟩]) =
        .ok ⟨rPre.successCount + rPost.successCount,
             rPre.errorCount + (rPost.errorCount + 1),
             rPre.requestCounts ++ 0 :: rPost.requestCounts⟩ :=
  deleteBatch_invalid_entry [⟨some 1, .resp true, .resp true⟩]
    [⟨some 2, .resp false, .resp true⟩] ⟨none, .resp true, .resp true⟩ rfl

/-- C2: while isDeletingInProgress is set, ladeGruppen is an identity on the
whole state (it resolves immediately and leaves Global.allGroups unchanged),
and the cache can only change when the busy flag is clear. -/
theorem ladeGruppen_respects_busy_flag (s : GlobalState)
    (resp : Except JsError GroupsResponse) :
    (s.isDeletingInProgress = true → ladeGruppen s resp = s) ∧
    ((ladeGruppen s resp).allGroups ≠ s.allGroups →
      s.isDeletingInProgress = false) := by
  constructor
  · intro h
    simp [ladeGruppen, h]
  · intro hchanged
    cases hflag : s.isDeletingInProgress with
    | false => rfl
    | true => exact absurd (by simp [ladeGruppen, hflag]) hchanged

/-- Witness for C2: a refresh arriving mid-delete with a successful response
still leaves the busy state untouched. -/
theorem ladeGruppen_respects_busy_flag_witness :
    ladeGruppen ⟨[⟨1, "DI24/01", some 1⟩], true⟩
        (.ok ⟨true, some [⟨2, "DS24/07", some 2⟩]⟩) =
      ⟨[⟨1, "DI24/01", some 1⟩], true⟩ :=
  (ladeGruppen_respects_busy_flag ⟨[⟨1, "DI24/01", some 1⟩], true⟩
    (.ok ⟨true, some [⟨2, "DS24/07", some 2⟩]⟩)).1 rfl

/-- C3: starting from a quiescent state, loeschen either fails validation on
an empty selection with the busy flag back to false, or runs the batch on a
state whose busy flag was set to true beforehand, ending with the flag
false; so the flag is set before the first deletion request and cleared on
every exit path. -/
theorem loeschen_busy_flag_discipline (s : GlobalState)
    (selectedGroups : List DeleteEntry) (h : s.isDeletingInProgress = false) :
    (selectedGroups = [] →
      loeschen s selectedGroups =
        .ok ({ s with isDeletingInProgress := false }, .validationFailed)) ∧
    (selectedGroups ≠ [] → ∃ r,
      deleteGroupsSequentially { s with isDeletingInProgress := true }
          selectedGroups =
        .ok ({ s with isDeletingInProgress := false }, r) ∧
      loeschen s selectedGroups =
        .ok ({ s with isDeletingInProgress := false }, .batchRun r)) := by
  constructor
  · intro hempty
    subst hempty
    simp [loeschen, h]
  · intro hne
    obtain ⟨r, hr, -, -, -⟩ := runDeleteBatch_ok selectedGroups
    have hbatch : deleteGroupsSequentially { s with isDeletingInProgress := true }
        selectedGroups = .ok ({ s with isDeletingInProgress := false }, r) := by
      simp [deleteGroupsSequentially, hr]
    refine ⟨r, hbatch, ?_⟩
    rw [loeschen]
    simp only [h, Bool.false_eq_true, if_false]
    rw [if_neg (by simpa [List.isEmpty_iff] using hne)]
    rw [hbatch]

/-- Witness for C3 at a nonempty concrete selection. -/
theorem loeschen_busy_flag_discipline_witness :
    ∃ r,
      deleteGroupsSequentially
          { allGroups := ([] : List GroupItem), isDeletingInProgress := true }
          [⟨some 7, .resp true, .resp true⟩] =
        .ok (⟨[], false⟩, r) ∧
      loeschen ⟨[], false⟩ [⟨some 7, .resp true, .resp true⟩] =
        .ok (⟨[], false⟩, .batchRun r) :=
  (loeschen_busy_flag_discipline ⟨[], false⟩ [⟨some 7, .resp true, .resp true⟩]
    rfl).2 (by simp)

/-- C5: with empty message text or zero resolved target groups, senden stops
at the validation alert; the state is untouched, so no POST is made and no
file is written, in either deployment variant. -/
theorem senden_rejects_invalid (st : ComposerState) (v : SinkVariant)
    (h : st.message = "" ∨ resolveTargets st = []) :
    senden st v = ([.alertShown "fehlende Angaben"], st) := by
  rw [senden]
  rcases h with h | h
  · rw [if_pos]
    simp [h]
  · rw [if_pos]
    simp [h]

/-- Witness for C5: empty message with a nonempty selection. -/
theorem senden_rejects_invalid_witness :
    senden ⟨"", false, [], [], [5], [⟨5, "DI24/01", some 1⟩]⟩ .network =
      ([.alertShown "fehlende Angaben"],
       ⟨"", false, [], [], [5], [⟨5, "DI24/01", some 1⟩]⟩) :=
  senden_rejects_invalid ⟨"", false, [], [], [5], [⟨5, "DI24/01", some 1⟩]⟩
    .network (Or.inl rfl)

/-- A concrete composer state used to separate what the settle-delay reset
of buildJson clears from what it leaves in place. -/
def composerExample : ComposerState :=
  ⟨"Hallo", false, ["24"], ["studenten"], [5], [⟨5, "DI24/01", some 1⟩]⟩

/-- Counterexample to C6 as stated: this submission has non-empty text and
one resolved target and succeeds (the message is handed to the sink and the
settle-delay reset runs), yet the selected years and selected types survive
the reset unchanged instead of being cleared; only the message text, the
group selection and sendToAll are reset. -/
theorem senden_keeps_year_and_type_filters :
    (senden composerExample .network).1 =
      [.postedJSON ⟨"Hallo", ["DI24/01"]⟩,
       .alertShown "Nachricht erfolgreich gesendet!",
       .refreshRequested] ∧
    (senden composerExample .network).2.message = "" ∧
    (senden composerExample .network).2.selectedYears = ["24"] ∧
    (senden composerExample .network).2.selectedStudTypes = ["studenten"] := by
  refine ⟨?_, ?_, ?_, ?_⟩ <;> decide

/-- C6 amended: a submission with non-empty text and at least one resolved
target group succeeds, the Outbound Message of the text and the resolved
names is handed to the sink of the variant, and after the settle delay the
message text, the group selection and sendToAll are reset and a directory
refresh is requested; the selected years and selected types are left
unchanged. -/
theorem senden_success_resets (st : ComposerState) (v : SinkVariant)
    (h1 : st.message ≠ "") (h2 : resolveTargets st ≠ []) :
    senden st v =
      ([sinkEffect v ⟨st.message, resolveTargets st⟩,
        .alertShown "Nachricht erfolgreich gesendet!",
        .refreshRequested],
       { st with message := "", groupSelection := [], sendToAll := false }) := by
  rw [senden]
  rw [if_neg]
  · rfl
  · simp [h1, h2]

/-- Witness for C6 at the concrete example state. -/
theorem senden_success_resets_witness :
    senden composerExample .network =
      ([sinkEffect .network ⟨composerExample.message, resolveTargets composerExample⟩,
        .alertShown "Nachricht erfolgreich gesendet!",
        .refreshRequested],
       { composerExample with message := "", groupSelection := [], sendToAll := false }) :=
  senden_success_resets composerExample .network (by decide) (by decide)

theorem sendenFilter_eq_matchesFacets (years types : List String) (g : GroupItem) :
    sendenFilter years types g = matchesFacets years types g := by
  cases years <;> cases types <;> simp [sendenFilter, matchesFacets]

/-- C7: with sendToAll checked at submission time, the resolved target names
are exactly the labels of the cached groups matching the selected year and
type facets, each facet being vacuous when its selection is empty; with no
facet selected at all this is every cached group. -/
theorem sendToAll_resolves_to_facet_matches (st : ComposerState)
    (h : st.sendToAll = true) :
    resolveTargets st =
      (st.allGroups.filter
        (matchesFacets st.selectedYears st.selectedStudTypes)).map
        (fun g => g.label) := by
  rw [resolveTargets, h, if_pos rfl]
  rcases hy : st.selectedYears with _ | ⟨y, ys⟩
  · rcases ht : st.selectedStudTypes with _ | ⟨t, ts⟩
    · have hfe : List.filter (matchesFacets ([] : List String) ([] : List String))
          st.allGroups = st.allGroups :=
        List.filter_eq_self.mpr (fun g _ => rfl)
      rw [hfe]
      split
      · rename_i hc
        simp at hc
      · rfl
    · simp only [List.length_nil, List.length_cons]
      rw [if_pos (by simp)]
      rw [List.filter_congr (fun g _ => sendenFilter_eq_matchesFacets _ _ g)]
  · simp only [List.length_cons]
    rw [if_pos (by simp)]
    rw [List.filter_congr (fun g _ => sendenFilter_eq_matchesFacets _ _ g)]

/-- Witness for C7: sendToAll with a year facet selecting one of two cached
groups. -/
theorem sendToAll_resolves_to_facet_matches_witness :
    resolveTargets ⟨"Hallo", true, ["24"], [],
        [], [⟨1, "DI24/01", some 1⟩, ⟨2, "DS23/07", some 2⟩]⟩ =
      (([⟨1, "DI24/01", some 1⟩, ⟨2, "DS23/07", some 2⟩] : List GroupItem).filter
        (matchesFacets ["24"] [])).map (fun g => g.label) :=
  sendToAll_resolves_to_facet_matches
    ⟨"Hallo", true, ["24"], [], [], [⟨1, "DI24/01", some 1⟩, ⟨2, "DS23/07", some 2⟩]⟩ rfl

theorem digit_notUpper {c : Char} (h : isDigit09 c = true) : isUpperAZ c = false := by
  simp only [isDigit09, Bool.and_eq_true, decide_eq_true_eq] at h
  simp only [isUpperAZ, Bool.and_eq_false_iff, decide_eq_false_iff_not]
  omega

theorem takeWhile_all_append (L : List Char) (d : Char) (t : List Char)
    (hL : ∀ c ∈ L, isUpperAZ c = true) (hd : isUpperAZ d = false) :
    (L ++ d :: t).takeWhile isUpperAZ = L ∧
    (L ++ d :: t).dropWhile isUpperAZ = d :: t := by
  induction L with
  | nil => simp [List.takeWhile_cons, List.dropWhile_cons, hd]
  | cons a l ih =>
    have ha : isUpperAZ a = true := hL a (List.mem_cons_self a l)
    obtain ⟨ihT, ihD⟩ := ih (fun c hc => hL c (List.mem_cons_of_mem a hc))
    constructor
    · rw [List.cons_append, List.takeWhile_cons, if_pos ha, ihT]
    · rw [List.cons_append, List.dropWhile_cons, if_pos ha, ihD]

theorem matchYearAt_full (L : List Char) (d1 d2 e : Char) (t : List Char)
    (hL : L ≠ []) (hall : ∀ c ∈ L, isUpperAZ c = true)
    (h1 : isDigit09 d1 = true) (h2 : isDigit09 d2 = true)
    (he : isDigit09 e = true) :
    matchYearAt (L ++ d1 :: d2 :: '/' :: e :: t) = some (String.mk [d1, d2]) := by
  obtain ⟨tw, dw⟩ :=
    takeWhile_all_append L d1 (d2 :: '/' :: e :: t) hall (digit_notUpper h1)
  rw [matchYearAt, tw, dw]
  cases L with
  | nil => exact absurd rfl hL
  | cons a l => simp [h1, h2, he]

theorem matchYearAt_some_capture (cs : List Char) (y : String)
    (h : matchYearAt cs = some y) :
    ∃ d1 d2, y = String.mk [d1, d2] ∧ yearCaptureIn cs d1 d2 := by
  rw [matchYearAt] at h
  split at h
  · exact absurd h (by simp)
  · rename_i a l d1 d2 c d3 tail htw hdw
    split at h
    · rename_i hcond
      simp only [Bool.and_eq_true, beq_iff_eq] at hcond
      obtain ⟨⟨⟨hd1, hd2⟩, hslash⟩, hd3⟩ := hcond
      subst hslash
      refine ⟨d1, d2, (Option.some.inj h).symm, [], a :: l, [d3], tail, ?_,
        by simp, ?_, hd1, hd2, by simp, ?_⟩
      · have hsplit := List.takeWhile_append_dropWhile (p := isUpperAZ) (l := cs)
        rw [htw, hdw] at hsplit
        simpa using hsplit.symm
      · intro ch hc
        have hmem : ch ∈ cs.takeWhile isUpperAZ := by rw [htw]; exact hc
        exact List.mem_takeWhile_imp hmem
      · intro ch hc
        rcases List.mem_singleton.mp hc with rfl
        exact hd3
    · exact absurd h (by simp)
  · exact absurd h (by simp)

theorem yearCaptureIn_cons (a : Char) (t : List Char) (d1 d2 : Char)
    (h : yearCaptureIn t d1 d2) : yearCaptureIn (a :: t) d1 d2 := by
  obtain ⟨pre, letters, ds, suf, hcs, hrest⟩ := h
  exact ⟨a :: pre, letters, ds, suf, by rw [hcs]; rfl, hrest⟩

theorem searchYear_some_capture (cs : List Char) (y : String)
    (h : searchYear cs = some y) :
    ∃ d1 d2, y = String.mk [d1, d2] ∧ yearCaptureIn cs d1 d2 := by
  induction cs with
  | nil => exact absurd h (by rw [searchYear]; simp)
  | cons a rest ih =>
    rw [searchYear] at h
    cases hm : matchYearAt (a :: rest) with
    | some y0 =>
      rw [hm] at h
      obtain rfl := Option.some.inj h
      exact matchYearAt_some_capture _ _ hm
    | none =>
      rw [hm] at h
      obtain ⟨d1, d2, hy, hcap⟩ := ih h
      exact ⟨d1, d2, hy, yearCaptureIn_cons a rest d1 d2 hcap⟩

theorem searchYear_append_isSome (pre rest : List Char)
    (h : ∃ y, matchYearAt rest = some y) :
    ∃ y, searchYear (pre ++ rest) = some y := by
  induction pre with
  | nil =>
    obtain ⟨y, hy⟩ := h
    cases rest with
    | nil =>
      have hnone : matchYearAt [] = none := rfl
      rw [hnone] at hy
      exact absurd hy (by simp)
    | cons c t =>
      refine ⟨y, ?_⟩
      rw [List.nil_append, searchYear, hy]
  | cons a p ih =>
    rw [List.cons_append]
    cases hm : matchYearAt (a :: (p ++ rest)) with
    | some y0 =>
      refine ⟨y0, ?_⟩
      rw [searchYear, hm]
    | none =>
      obtain ⟨y, hy⟩ := ih
      refine ⟨y, ?_⟩
      rw [searchYear, hm, hy]

theorem yearPatternIn_searchYear (cs : List Char) (h : yearPatternIn cs) :
    ∃ y, searchYear cs = some y := by
  obtain ⟨d1, d2, pre, letters, ds, suf, hcs, hL, hall, hd1, hd2, hds, hdig⟩ := h
  rcases ds with _ | ⟨e, t⟩
  · exact absurd rfl hds
  · subst hcs
    have hm := matchYearAt_full letters d1 d2 e (t ++ suf) hL hall hd1 hd2
      (hdig e (List.mem_cons_self e t))
    simp only [List.append_assoc, List.cons_append]
    exact searchYear_append_isSome pre
      (letters ++ d1 :: d2 :: '/' :: e :: (t ++ suf)) ⟨String.mk [d1, d2], hm⟩

/-- C8: first conjunct, a group name consisting of one or more uppercase
letters, two digits, a slash and one or more digits yields exactly those
two digits as the year; second conjunct, whatever year the function returns
is the two captured digits of an actual occurrence of the pattern in the
name; third conjunct, every name containing the pattern (the containment
reading of matching, which is what the unanchored JavaScript regex tests)
yields a year; fourth conjunct, every name not containing the pattern
yields null.  Together these settle the result on every name: null exactly
on the non-matching names, and on a matching name the captured digits of an
occurrence (for example xDI24/01, where every occurrence captures 24). -/
theorem extractYear_spec :
    (∀ (L : List Char) (d1 d2 : Char) (ds : List Char),
      L ≠ [] → (∀ c ∈ L, isUpperAZ c = true) →
      isDigit09 d1 = true → isDigit09 d2 = true →
      ds ≠ [] → (∀ c ∈ ds, isDigit09 c = true) →
      extractYearFromGroupName (String.mk (L ++ d1 :: d2 :: '/' :: ds)) =
        some (String.mk [d1, d2])) ∧
    (∀ (name y : String), extractYearFromGroupName name = some y →
      ∃ d1 d2, y = String.mk [d1, d2] ∧ yearCaptureIn name.toList d1 d2) ∧
    (∀ name : String, yearPatternIn name.toList →
      ∃ y, extractYearFromGroupName name = some y) ∧
    (∀ name : String, ¬ yearPatternIn name.toList →
      extractYearFromGroupName name = none) := by
  refine ⟨?_, ?_, ?_, ?_⟩
  · intro L d1 d2 ds hL hall h1 h2 hds hdig
    rcases ds with _ | ⟨e, t⟩
    · exact absurd rfl hds
    · have hm := matchYearAt_full L d1 d2 e t hL hall h1 h2
        (hdig e (List.mem_cons_self e t))
      rcases L with _ | ⟨a, l⟩
      · exact absurd rfl hL
      · show searchYear ((a :: l) ++ d1 :: d2 :: '/' :: e :: t) = _
        rw [List.cons_append, searchYear, ← List.cons_append, hm]
  · intro name y h
    exact searchYear_some_capture name.toList y h
  · intro name h
    exact yearPatternIn_searchYear name.toList h
  · intro name hnp
    cases hy : extractYearFromGroupName name with
    | none => rfl
    | some y =>
      obtain ⟨d1, d2, -, hcap⟩ := searchYear_some_capture name.toList y hy
      exact absurd ⟨d1, d2, hcap⟩ hnp

/-- Witness for C8: DI24/01 is exactly the pattern and yields 24 (first
conjunct); xDI24/01 merely contains the pattern and its returned year 24 is
the capture of that occurrence (second conjunct applied to the concrete
evaluation); Hallo contains no occurrence and yields null (fourth conjunct,
its hypothesis discharged through the third conjunct against the concrete
evaluation). -/
theorem extractYear_spec_witness :
    extractYearFromGroupName (String.mk (['D', 'I'] ++ '2' :: '4' :: '/' :: ['0', '1'])) =
      some (String.mk ['2', '4']) ∧
    (∃ d1 d2, ("24" : String) = String.mk [d1, d2] ∧
      yearCaptureIn (String.toList "xDI24/01") d1 d2) ∧
    extractYearFromGroupName "Hallo" = none := by
  refine ⟨?_, ?_, ?_⟩
  · exact extractYear_spec.1 ['D', 'I'] '2' '4' ['0', '1'] (by decide) (by decide)
      (by decide) (by decide) (by decide) (by decide)
  · exact extractYear_spec.2.1 "xDI24/01" "24" (by decide)
  · refine extractYear_spec.2.2.2 "Hallo" ?_
    intro hpat
    obtain ⟨y, hy⟩ := extractYear_spec.2.2.1 "Hallo" hpat
    have hnone : extractYearFromGroupName "Hallo" = none := by decide
    rw [hnone] at hy
    exact Option.noConfusion hy

/-- C9: for a name of length at least two, extractArtFromGroupName returns
2 exactly when the uppercased second character is S and 1 otherwise; the
documented examples map DI24/01 to 1 and DS24/07 to 2. -/
theorem extractArt_spec :
    (∀ (name : String) (a b : Char) (rest : List Char),
      name.toList = a :: b :: rest →
      extractArtFromGroupName name = if b.toUpper == 'S' then 2 else 1) ∧
    extractArtFromGroupName "DI24/01" = 1 ∧
    extractArtFromGroupName "DS24/07" = 2 := by
  refine ⟨?_, by decide, by decide⟩
  intro name a b rest h
  rw [extractArtFromGroupName, h]

/-- Witness for C9 at the name DS24/07, whose second character is S. -/
theorem extractArt_spec_witness :
    extractArtFromGroupName "DS24/07" = if ('S').toUpper == 'S' then 2 else 1 :=
  extractArt_spec.1 "DS24/07" 'D' 'S' ['2', '4', '/', '0', '7'] (by decide)
